import Mathlib

set_option maxRecDepth 100000

/-!
Verification of the Modbus scan engine of `ha_modbus_debugger`.

Bytes are modelled as natural numbers (a well-formed byte is `< 256`);
byte strings are `List Nat`.  Python `struct.pack` raises on out-of-range
values, so packing helpers return `Option`; a Python function that can
raise an uncaught exception is embedded as an `Option`-returning function
where `none` means "raises".
-/

/-- Framing selected by `connection_type` / `rtu_over_tcp` in `ModbusScanner`:
`tcpMbap` is the branch `connection_type == TCP and not rtu_over_tcp`;
`rtuFrame` covers serial RTU and RTU-over-TCP (identical code path). -/
inductive Encapsulation where
  | tcpMbap
  | rtuFrame
deriving DecidableEq, Repr

/-- `struct.pack('>B', n)`: one byte, raises unless `n < 256`. -/
def packU8 (n : Nat) : Option (List Nat) :=
  if n < 256 then some [n] else none

/-- `struct.pack('>H', n)`: two bytes big-endian, raises unless `n < 65536`. -/
def packU16be (n : Nat) : Option (List Nat) :=
  if n < 65536 then some [n / 256, n % 256] else none

/-- `struct.pack('<H', n)`: two bytes little-endian, raises unless `n < 65536`. -/
def packU16le (n : Nat) : Option (List Nat) :=
  if n < 65536 then some [n % 256, n / 256] else none

/-- One iteration of the inner 8-round loop of `_calculate_crc`:
`if (crc & 0x0001): crc = (crc >> 1) ^ 0xA001 else: crc >>= 1`. -/
def crcBitRound (crc : Nat) : Nat :=
  if crc &&& 1 = 1 then (crc >>> 1) ^^^ 0xA001 else crc >>> 1

/-- `k` iterations of `crcBitRound` (the source runs 8 per input byte). -/
def crcBitRounds : Nat → Nat → Nat
  | 0, crc => crc
  | k + 1, crc => crcBitRounds k (crcBitRound crc)

/-- The accumulator value computed by the loop of `_calculate_crc`:
seed `0xFFFF`, then for each byte `crc ^= char` followed by 8 bit rounds. -/
def crcValue (data : List Nat) : Nat :=
  data.foldl (fun crc ch => crcBitRounds 8 (crc ^^^ ch)) 0xFFFF

/-- `ModbusScanner._calculate_crc`: the CRC accumulator serialised with
`struct.pack('<H', crc)` (low byte first). -/
def _calculate_crc (data : List Nat) : Option (List Nat) :=
  packU16le (crcValue data)

/-- `ModbusScanner._build_request_packet(unit_id, func_code, start_address,
count, transaction_id)`. -/
def _build_request_packet (enc : Encapsulation) (unit_id func_code start_address count transaction_id : Nat) : Option (List Nat) := do
  let fb ← packU8 func_code
  let ab ← packU16be start_address
  let cb ← packU16be count
  let pdu := fb ++ ab ++ cb
  match enc with
  | .tcpMbap =>
    let tb ← packU16be transaction_id
    let pb ← packU16be 0
    let lb ← packU16be (1 + pdu.length)
    let ub ← packU8 unit_id
    pure (tb ++ pb ++ lb ++ ub ++ pdu)
  | .rtuFrame =>
    let ub ← packU8 unit_id
    let payload := ub ++ pdu
    let crc ← _calculate_crc payload
    pure (payload ++ crc)

/-- The dictionary returned by `_parse_response_packet`, as a tagged variant.
Each constructor is one `return` site of the source; constructors other than
`registers` carry the `"error"` key (`modbusException` additionally carries
`"exception_code"` and `"raw"`). -/
inductive ParseResult where
  | noResponse
  | tooShortTcp
  | unitIdMismatch (expected got : Nat)
  | tooShortRtu
  | crcError
  | emptyPdu
  | modbusException (code : Nat) (raw : List Nat)
  | pduTooShort
  | byteCountMismatch (expected got : Nat)
  | registers (values : List Nat) (unitId : Nat)
deriving DecidableEq, Repr

/-- The register-decoding loop of `_parse_response_packet`:
`struct.unpack('>H', data_bytes[i:i+2])` two bytes at a time; a trailing odd
byte makes `struct.unpack` raise (modelled as `none`). -/
def unpackRegisters : List Nat → Option (List Nat)
  | [] => some []
  | [_] => none
  | hi :: lo :: rest => (unpackRegisters rest).map (fun tl => (hi * 256 + lo) :: tl)

/-- The shared PDU-decoding tail of `_parse_response_packet` (from
`if not pdu_data` onwards); `response_data` is kept only for the `"raw"`
field of the exception dictionary. -/
def decodePdu (response_data pdu_data : List Nat) (unit_id : Nat) : Option ParseResult :=
  match pdu_data with
  | [] => some .emptyPdu
  | func_code :: rest =>
    if 0x80 ≤ func_code then
      some (.modbusException (rest.headD 0) response_data)
    else
      match rest with
      | [] => some .pduTooShort
      | byte_count :: data_bytes =>
        if data_bytes.length ≠ byte_count then
          some (.byteCountMismatch byte_count data_bytes.length)
        else
          (unpackRegisters data_bytes).map (fun regs => .registers regs unit_id)

/-- `ModbusScanner._parse_response_packet(request_packet, response_data,
unit_id)`; `request_packet` is never read by the source body. -/
def _parse_response_packet (enc : Encapsulation) (request_packet response_data : List Nat) (unit_id : Nat) : Option ParseResult :=
  if response_data.isEmpty then
    some .noResponse
  else
    match enc with
    | .tcpMbap =>
      if response_data.length < 7 then
        some .tooShortTcp
      else
        let resp_unit_id := response_data.getD 6 0
        if resp_unit_id ≠ unit_id then
          some (.unitIdMismatch unit_id resp_unit_id)
        else
          decodePdu response_data (response_data.drop 7) unit_id
    | .rtuFrame =>
      if response_data.length < 4 then
        some .tooShortRtu
      else
        let received_crc := response_data.drop (response_data.length - 2)
        let payload_without_crc := response_data.take (response_data.length - 2)
        match _calculate_crc payload_without_crc with
        | none => none
        | some calculated_crc =>
          if received_crc ≠ calculated_crc then
            some .crcError
          else
            let resp_unit_id := payload_without_crc.getD 0 0
            if resp_unit_id ≠ unit_id then
              some (.unitIdMismatch unit_id resp_unit_id)
            else
              decodePdu response_data (payload_without_crc.drop 1) unit_id

/-- The synthetic echo responder of the spec's round-trip property: given the
request bytes, it answers the request's unit id with the single register value
`v`, well-framed for the encapsulation (for TCP-MBAP it echoes the request's
transaction id; for RTU it appends the CRC over the payload). -/
def echoResponder (enc : Encapsulation) (request : List Nat) (v : Nat) : Option (List Nat) := do
  match enc with
  | .tcpMbap =>
    let unit := request.getD 6 0
    let func := request.getD 7 0
    let vb ← packU16be v
    let pdu := [func, 2] ++ vb
    pure (request.take 2 ++ [0, 0] ++ [0, 1 + pdu.length] ++ [unit] ++ pdu)
  | .rtuFrame =>
    let unit := request.getD 0 0
    let func := request.getD 1 0
    let vb ← packU16be v
    let payload := [unit, func, 2] ++ vb
    let crc ← _calculate_crc payload
    pure (payload ++ crc)

/-- Transport behaviour of one attempt for a unit id, abstracting the I/O of
`scan_tcp`: `connectOk` is whether `asyncio.open_connection` succeeds
(consulted only when no live connection exists), and `exchange` is the raw
response bytes delivered by `_perform_tcp_request`, or `none` for an
`OSError` / `asyncio.TimeoutError` / `EOFError` raised during the exchange. -/
structure AttemptBehavior where
  connectOk : Bool
  exchange : Option (List Nat)

/-- The trace lines emitted through `_log_debug` (and so through the optional
`log_callback`) by the scan loops of `scanner.py`. -/
inductive LogEvent where
  | connecting
  | connected
  | connectFailed
  | sending (unitId attempt : Nat)
  | received (unitId : Nat) (data : List Nat)
  | parsingError (unitId : Nat)
  | errorLogged (unitId : Nat)
  | noResponseLogged (unitId : Nat)
  | incompleteLogged (unitId : Nat)
  | portFailedLogged
deriving DecidableEq, Repr

/-- A conclusive per-unit classification, as recorded in the `results` dicts
of `scan_tcp`: a first register value (with its hex rendering), the
empty-registers case, or a Modbus exception code. -/
inductive Outcome where
  | found (value : Nat)
  | emptyResponse
  | exceptionCode (code : Nat)
deriving DecidableEq, Repr

/-- One entry appended to `results` by `scan_tcp` (the dict carrying
`unit_id`, `register` and the value / error fields). -/
structure ScanRes where
  unitId : Nat
  register : Nat
  outcome : Outcome
deriving DecidableEq, Repr

/-- The `elif` chain over `parsed` shared by both branches of `scan_tcp`:
non-empty `registers` and empty `registers` and `exception_code` are
conclusive (recorded, loop left); a bare `error` dictionary is inconclusive
(`none`) and the attempt loop continues. -/
def classify (p : ParseResult) : Option Outcome :=
  match p with
  | .registers (v :: _) _ => some (.found v)
  | .registers [] _ => some .emptyResponse
  | .modbusException c _ => some (.exceptionCode c)
  | _ => none

/-- The `for attempt in range(retries + 1)` loop of the persistent sequential
branch of `ModbusScanner.scan_tcp` (`concurrency == 1`) for one unit id.
The oracle gives each attempt's transport behaviour; the log callback is
threaded as a state `s : σ` updated by `cb` exactly where `_log_debug` runs.
`fuel` counts remaining attempts and `idx` the current attempt index; `conn`
says whether the shared connection is live.  Returns `none` when an uncaught
exception (the `struct.error` of C8) aborts the whole scan, else the final
log state, the connection state, and the recorded conclusive result
(`none` = inconclusive, the caller logs "No Response"). -/
def attemptLoop {σ : Type} (cb : LogEvent → σ → σ) (enc : Encapsulation)
    (oracle : Nat → AttemptBehavior) (unit_id register : Nat) :
    Nat → Nat → Bool → σ → Option (σ × Bool × Option ScanRes)
  | 0, _, conn, s => some (s, conn, none)
  | fuel + 1, idx, conn, s =>
    let b := oracle idx
    if conn = false ∧ b.connectOk = false then
      let s1 := cb .connectFailed (cb .connecting s)
      attemptLoop cb enc oracle unit_id register fuel (idx + 1) false s1
    else
      let s1 := if conn then s else cb .connected (cb .connecting s)
      let s2 := cb (.sending unit_id idx) s1
      match b.exchange with
      | none => attemptLoop cb enc oracle unit_id register fuel (idx + 1) false s2
      | some data =>
        let s3 := cb (.received unit_id data) s2
        match _parse_response_packet enc [] data unit_id with
        | none => none
        | some p =>
          match classify p with
          | some o => some (s3, true, some ⟨unit_id, register, o⟩)
          | none =>
            let s4 := cb (.parsingError unit_id) s3
            attemptLoop cb enc oracle unit_id register fuel (idx + 1) true s4

/-- The `for unit_id in range(start_unit, end_unit + 1)` loop of the
persistent sequential branch of `scan_tcp`, over an explicit unit list:
threads the live connection and the log state, collects `results` in order,
and logs "No Response" for a unit with no conclusive outcome.  A crash
(`none`) propagates and discards all results, as the uncaught exception
does in the source. -/
def scanTcpSeqAux {σ : Type} (cb : LogEvent → σ → σ) (enc : Encapsulation)
    (oracle : Nat → Nat → AttemptBehavior) (register retries : Nat) :
    List Nat → Bool → σ → Option (σ × List ScanRes)
  | [], _, s => some (s, [])
  | u :: rest, conn, s =>
    match attemptLoop cb enc (oracle u) u register (retries + 1) 0 conn s with
    | none => none
    | some (s1, conn1, res) =>
      let s2 := match res with
        | none => cb (.noResponseLogged u) s1
        | some _ => s1
      match scanTcpSeqAux cb enc oracle register retries rest conn1 s2 with
      | none => none
      | some (sFinal, tail) => some (sFinal, res.toList ++ tail)

/-- `ModbusScanner.scan_tcp` with `concurrency == 1` (persistent sequential
strategy) over the unit range `[start_unit, end_unit]`. -/
def scan_tcp_seq {σ : Type} (cb : LogEvent → σ → σ) (enc : Encapsulation)
    (oracle : Nat → Nat → AttemptBehavior) (start_unit end_unit register retries : Nat)
    (s : σ) : Option (σ × List ScanRes) :=
  scanTcpSeqAux cb enc oracle register retries
    (List.range' start_unit (end_unit + 1 - start_unit)) false s

/-- The per-unit coroutine `scan_one` of the concurrent (ephemeral-TCP)
branch of `scan_tcp` (`concurrency > 1`): a fresh connection per attempt;
connect failure and exchange error are logged and retried; a conclusive
classification returns at once; exhausting the attempts logs "No Response"
and records nothing.  As in `attemptLoop`, `none` is the uncaught
`struct.error` crash while parsing. -/
def scanOneLoop {σ : Type} (cb : LogEvent → σ → σ) (enc : Encapsulation)
    (oracle : Nat → AttemptBehavior) (unit_id register : Nat) :
    Nat → Nat → σ → Option (σ × Option ScanRes)
  | 0, _, s => some (cb (.noResponseLogged unit_id) s, none)
  | fuel + 1, idx, s =>
    let b := oracle idx
    let s1 := cb .connecting s
    if b.connectOk = false then
      let s2 := cb .connectFailed s1
      scanOneLoop cb enc oracle unit_id register fuel (idx + 1) s2
    else
      let s2 := cb (.sending unit_id idx) s1
      match b.exchange with
      | none =>
        let s3 := cb (.errorLogged unit_id) s2
        scanOneLoop cb enc oracle unit_id register fuel (idx + 1) s3
      | some data =>
        let s3 := cb (.received unit_id data) s2
        match _parse_response_packet enc [] data unit_id with
        | none => none
        | some p =>
          match classify p with
          | some o => some (s3, some ⟨unit_id, register, o⟩)
          | none => scanOneLoop cb enc oracle unit_id register fuel (idx + 1) s3

/-- The log callback that simply records the emitted trace lines in order. -/
def logCb (e : LogEvent) (s : List LogEvent) : List LogEvent :=
  s ++ [e]

/-- Number of "Sending request to Unit ... (Attempt ...)" lines in a trace:
one per attempt that reaches the request/response exchange. -/
def countSending (l : List LogEvent) : Nat :=
  (l.filter (fun e => match e with | .sending _ _ => true | _ => false)).length

/-- Number of "Sending request to Unit u ..." lines for the given unit id. -/
def countSendingFor (u : Nat) (l : List LogEvent) : Nat :=
  (l.filter (fun e => match e with | .sending w _ => w == u | _ => false)).length

/-- An attempt behaviour that cannot produce a conclusive outcome for
`unit_id`: the exchange fails (covering also attempts spent on connect
failures, which never reach the exchange) or the response parses to a plain
error dictionary. -/
def inconclusiveBehavior (enc : Encapsulation) (unit_id : Nat) (b : AttemptBehavior) : Prop :=
  b.exchange = none ∨
    ∃ data p, b.exchange = some data ∧
      _parse_response_packet enc [] data unit_id = some p ∧ classify p = none

/-- The simulated transport of the spec's retry property: connections always
succeed, the first `k` attempts fail at the exchange, every later attempt
delivers `frame`. -/
def simTransport (k : Nat) (frame : List Nat) : Nat → AttemptBehavior :=
  fun idx => ⟨true, if idx < k then none else some frame⟩

/-- One entry of the `found_devices` list of `handle_scan_devices` in
`services.py` (the dict with `unit_id`, `register`, `value`, `hex`). -/
structure FoundDevice where
  unitId : Nat
  register : Nat
  value : Nat
deriving DecidableEq, Repr

/-- The keyword parameters accepted by `ModbusHub.read_holding_registers` and
`ModbusHub.read_input_registers` in `modbus.py`: `slave`, `address`, `count` —
there is no `retries` parameter. -/
def modbusHubReadParams : List String := ["slave", "address", "count"]

/-- Python keyword-call semantics: a call that supplies a keyword argument the
callee does not declare raises `TypeError` before the body runs. -/
def callWithKeyword {α : Type} (params : List String) (kw : String) (body : α) : Option α :=
  if params.contains kw then some body else none

/-- The per-attempt read of `scan_unit` in `services.py`:
`hub.read_holding_registers(unit_id, register, 1, retries=0)` (resp. input
registers).  The keyword `retries` is not a parameter of `ModbusHub.read_*`,
so the call raises `TypeError` (`none`) before any Modbus I/O happens;
`read idx` abstracts what the hub read of attempt `idx` would have returned
had the call been legal (`some v` = non-error response with first register
`v`, `none` = error or no response). -/
def scan_unit_read (read : Nat → Option Nat) (idx : Nat) : Option (Option Nat) :=
  callWithKeyword modbusHubReadParams "retries" (read idx)

/-- The `for attempt in range(retries + 1)` loop of the per-unit coroutine
`scan_unit` of `handle_scan_devices`: the first successful read is recorded
and ends the loop, exhausting the attempts records nothing — and the outer
`none` is the uncaught `TypeError` of `scan_unit_read`, which nothing in
`scan_unit` catches. -/
def scan_unit (read : Nat → Option Nat) (u register : Nat) :
    Nat → Nat → Option (Option FoundDevice)
  | 0, _ => some none
  | fuel + 1, idx =>
    match scan_unit_read read idx with
    | none => none
    | some (some v) => some (some ⟨u, register, v⟩)
    | some none => scan_unit read u register fuel (idx + 1)

/-- The result assembly at the return of `handle_scan_devices`:
`sorted(found_devices, key=lambda x: x['unit_id'])` applied to the found
devices in whatever order the concurrent tasks completed. -/
def finalFoundDevices (found_devices : List FoundDevice) : List FoundDevice :=
  found_devices.mergeSort (fun a b => a.unitId ≤ b.unitId)

/-- The connection state of the `ModbusHub` as `handle_scan_devices` sees
it: whether `await hub.connect()` succeeds.  `ModbusHub` defines no
`last_error` attribute, so there is nothing more to model. -/
structure HubModel where
  connectOk : Bool

/-- The dictionaries `handle_scan_devices` is written to return: the
scan-level `Connection Failed` error dict (which the source attempts to
build at services.py lines 250-254 but never reaches, see
`handle_scan_devices`) and the completed scan result. -/
inductive ScanServiceResult where
  | connectionFailed (reason : String)
  | completed (found_devices : List FoundDevice) (count : Nat) (scanned_range : String)
deriving DecidableEq

/-- `handle_scan_devices` of `services.py`: verifies the connection once,
eagerly, before the scanning loop; then launches `scan_unit` for every unit
id in the range and returns the gathered `found_devices` sorted by unit id.
`gather` abstracts the order in which `asyncio.gather`'s concurrent tasks
append to `found_devices`.  `none` is an uncaught exception escaping the
handler: on connect failure the reason lookup `hub.last_error` raises
`AttributeError` (`ModbusHub` defines no such attribute), and on the scan
path a `TypeError` raised by any `scan_unit` task propagates through
`asyncio.gather` (or through the sequential awaits). -/
def handle_scan_devices (hub : HubModel) (read : Nat → Nat → Option Nat)
    (gather : List (Option FoundDevice) → List FoundDevice)
    (start_unit end_unit register retries : Nat) : Option ScanServiceResult :=
  if hub.connectOk = false then
    none
  else
    let units := List.range' start_unit (end_unit + 1 - start_unit)
    let outcomes := units.map (fun u => scan_unit (read u) u register (retries + 1) 0)
    if outcomes.any (fun o => o.isNone) then
      none
    else
      let found_devices := gather (outcomes.map (fun o => o.getD none))
      some (.completed (finalFoundDevices found_devices) found_devices.length
        (toString start_unit ++ "-" ++ toString end_unit))


/-- Transport behaviour of one attempt of `ModbusScanner.scan_serial`:
`ioError` says an exception was raised during `ser.write` / `ser.flush` /
`ser.read` (caught by the loop's `except Exception`); otherwise `firstRead`
is what `ser.read(5)` returned (fewer than 5 bytes on timeout) and
`secondRead` what the follow-up `ser.read(2)` returns when the function code
signals success. -/
structure SerialAttemptBehavior where
  ioError : Bool
  firstRead : List Nat
  secondRead : List Nat

/-- The `for attempt in range(retries + 1)` loop of `scan_serial` for one
unit id: log the send, build the RTU request (`struct.error` from an
out-of-range field is caught by `except Exception` and retried), write and
read (`ioError` likewise), require a 5-byte first chunk, read 2 more bytes
when the function code is below `0x80`, parse, and classify exactly as the
TCP loops do; a `struct.error` raised while parsing is also caught by
`except Exception`, so this loop never crashes.  Returns the final log
state and the recorded conclusive result. -/
def serialAttemptLoop {σ : Type} (cb : LogEvent → σ → σ)
    (oracle : Nat → SerialAttemptBehavior) (unit_id register reg_type : Nat) :
    Nat → Nat → σ → σ × Option ScanRes
  | 0, _, s => (s, none)
  | fuel + 1, idx, s =>
    let b := oracle idx
    let s1 := cb (.sending unit_id idx) s
    match _build_request_packet .rtuFrame unit_id reg_type register 1 0 with
    | none =>
      let s2 := cb (.errorLogged unit_id) s1
      serialAttemptLoop cb oracle unit_id register reg_type fuel (idx + 1) s2
    | some req =>
      if b.ioError then
        let s2 := cb (.errorLogged unit_id) s1
        serialAttemptLoop cb oracle unit_id register reg_type fuel (idx + 1) s2
      else
        if b.firstRead.length < 5 then
          let s2 := cb (.incompleteLogged unit_id) s1
          serialAttemptLoop cb oracle unit_id register reg_type fuel (idx + 1) s2
        else
          let response := if b.firstRead.getD 1 0 < 0x80 then
            b.firstRead ++ b.secondRead else b.firstRead
          if response.length < 5 then
            serialAttemptLoop cb oracle unit_id register reg_type fuel (idx + 1) s1
          else
            let s2 := cb (.received unit_id response) s1
            match _parse_response_packet .rtuFrame req response unit_id with
            | none =>
              let s3 := cb (.errorLogged unit_id) s2
              serialAttemptLoop cb oracle unit_id register reg_type fuel (idx + 1) s3
            | some p =>
              match classify p with
              | some o => (s2, some ⟨unit_id, register, o⟩)
              | none =>
                serialAttemptLoop cb oracle unit_id register reg_type fuel (idx + 1) s2

/-- The `for unit_id in range(start_unit, end_unit + 1)` loop of
`scan_serial` over an explicit unit list: collects `results` in order and
logs "No Response" for a unit with no conclusive outcome. -/
def scanSerialUnits {σ : Type} (cb : LogEvent → σ → σ)
    (oracle : Nat → Nat → SerialAttemptBehavior) (register reg_type retries : Nat) :
    List Nat → σ → σ × List ScanRes
  | [], s => (s, [])
  | u :: rest, s =>
    match serialAttemptLoop cb (oracle u) u register reg_type (retries + 1) 0 s with
    | (s1, res) =>
      let s2 := match res with
        | none => cb (.noResponseLogged u) s1
        | some _ => s1
      match scanSerialUnits cb oracle register reg_type retries rest s2 with
      | (s3, tail) => (s3, res.toList ++ tail)

/-- What `scan_serial` returns: the special one-element error list when the
serial port cannot be opened, or the collected per-unit results. -/
inductive SerialScanOutput where
  | portError
  | results (rs : List ScanRes)
deriving DecidableEq, Repr

/-- `ModbusScanner.scan_serial`: open the port once (failure is logged and
returns the port-error list), then scan the unit range sequentially. -/
def scan_serial {σ : Type} (cb : LogEvent → σ → σ) (portOpenOk : Bool)
    (oracle : Nat → Nat → SerialAttemptBehavior)
    (start_unit end_unit register reg_type retries : Nat) (s : σ) :
    σ × SerialScanOutput :=
  if portOpenOk = false then
    (cb .portFailedLogged s, .portError)
  else
    let t := scanSerialUnits cb oracle register reg_type retries
      (List.range' start_unit (end_unit + 1 - start_unit)) s
    (t.1, .results t.2)

theorem packU8_eq {n : Nat} (h : n < 256) : packU8 n = some [n] := by
  simp [packU8, h]

theorem packU16be_eq {n : Nat} (h : n < 65536) : packU16be n = some [n / 256, n % 256] := by
  simp [packU16be, h]

theorem crcBitRound_lt {c : Nat} (h : c < 65536) : crcBitRound c < 65536 := by
  have h1 : c >>> 1 < 65536 := by
    rw [Nat.shiftRight_one]
    omega
  unfold crcBitRound
  split
  · have : (65536 : Nat) = 2 ^ 16 := by norm_num
    rw [this] at h1 ⊢
    exact Nat.xor_lt_two_pow h1 (by norm_num)
  · exact h1

theorem crcBitRounds_lt {c : Nat} (h : c < 65536) : ∀ k, crcBitRounds k c < 65536 := by
  intro k
  induction k generalizing c with
  | zero => exact h
  | succ n ih => exact ih (crcBitRound_lt h)

theorem crcValue_lt {data : List Nat} (h : ∀ b ∈ data, b < 256) : crcValue data < 65536 := by
  unfold crcValue
  have main : ∀ (l : List Nat), (∀ b ∈ l, b < 256) → ∀ (acc : Nat), acc < 65536 →
      l.foldl (fun crc ch => crcBitRounds 8 (crc ^^^ ch)) acc < 65536 := by
    intro l
    induction l with
    | nil => intro _ acc hacc; simpa using hacc
    | cons x xs ih =>
      intro hl acc hacc
      simp only [List.foldl_cons]
      refine ih (fun b hb => hl b (List.mem_cons_of_mem _ hb)) _ ?_
      have hx : x < 65536 := lt_of_lt_of_le (hl x (List.mem_cons_self x xs)) (by norm_num)
      have : (65536 : Nat) = 2 ^ 16 := by norm_num
      refine crcBitRounds_lt ?_ 8
      rw [this] at hacc hx ⊢
      exact Nat.xor_lt_two_pow hacc hx
  exact main data h 0xFFFF (by norm_num)

theorem calculate_crc_eq {data : List Nat} (h : ∀ b ∈ data, b < 256) :
    _calculate_crc data = some [crcValue data % 256, crcValue data / 256] := by
  simp [_calculate_crc, packU16le, crcValue_lt h]

theorem build_tcp_eq {u f a c t : Nat} (hu : u < 256) (hf : f < 256) (ha : a < 65536)
    (hc : c < 65536) (ht : t < 65536) :
    _build_request_packet .tcpMbap u f a c t =
      some [t / 256, t % 256, 0, 0, 0, 6, u, f, a / 256, a % 256, c / 256, c % 256] := by
  simp [_build_request_packet, packU8_eq, packU16be_eq, hu, hf, ha, hc, ht,
    packU16be_eq (n := 0) (by norm_num), packU16be_eq (n := 6) (by norm_num)]

theorem build_rtu_eq {u f a c t : Nat} (hu : u < 256) (hf : f < 256) (ha : a < 65536)
    (hc : c < 65536) :
    _build_request_packet .rtuFrame u f a c t =
      some ([u, f, a / 256, a % 256, c / 256, c % 256] ++
        [crcValue [u, f, a / 256, a % 256, c / 256, c % 256] % 256,
         crcValue [u, f, a / 256, a % 256, c / 256, c % 256] / 256]) := by
  have hbytes : ∀ b ∈ [u, f, a / 256, a % 256, c / 256, c % 256], b < 256 := by
    intro b hb
    simp only [List.mem_cons, List.not_mem_nil, or_false] at hb
    rcases hb with rfl | rfl | rfl | rfl | rfl | rfl
    · exact hu
    · exact hf
    · omega
    · exact Nat.mod_lt _ (by norm_num)
    · omega
    · exact Nat.mod_lt _ (by norm_num)
  simp [_build_request_packet, packU8_eq, packU16be_eq, hu, hf, ha, hc,
    calculate_crc_eq hbytes]

/-- C3: `_calculate_crc` implements the standard Modbus RTU CRC16 — the
accumulator is seeded `0xFFFF`; each input byte is XORed into it and followed
by 8 rounds of "if the low bit is set, shift right and XOR with `0xA001`,
else shift right" — and the result is serialised as two bytes, low byte
first; in particular the CRC of `01 03 00 00 00 01` is `84 0A`. -/
theorem C3_crc16_modbus :
    (∀ c, crcBitRound c = if c % 2 = 1 then (c / 2) ^^^ 0xA001 else c / 2) ∧
    crcValue [] = 0xFFFF ∧
    (∀ data ch, crcValue (data ++ [ch]) = crcBitRounds 8 (crcValue data ^^^ ch)) ∧
    (∀ data, (∀ b ∈ data, b < 256) →
      _calculate_crc data = some [crcValue data % 256, crcValue data / 256]) ∧
    _calculate_crc [1, 3, 0, 0, 0, 1] = some [0x84, 0x0A] := by
  refine ⟨?_, rfl, ?_, ?_, by decide⟩
  · intro c
    simp [crcBitRound, Nat.and_one_is_mod, Nat.shiftRight_one]
  · intro data ch
    simp [crcValue, List.foldl_append]
  · intro data h
    exact calculate_crc_eq h

theorem C3_crc16_modbus_witness :
    _calculate_crc [1, 3, 0, 0, 0, 1] =
      some [crcValue [1, 3, 0, 0, 0, 1] % 256, crcValue [1, 3, 0, 0, 0, 1] / 256] :=
  C3_crc16_modbus.2.2.2.1 [1, 3, 0, 0, 0, 1] (by decide)

/-- C1 counterexample: the claim quantifies `unitId` (and `functionCode`) over
`0..65535`, but for `unitId = 300` the source's `struct.pack('>B', unit_id)`
raises `struct.error` (modelled as `none`), so no bytes are returned at all. -/
theorem C1_counterexample : _build_request_packet .tcpMbap 300 3 0 1 5 = none := by decide

/-- C1 (amended): for every `unitId` and `functionCode` in `0..255` and
`startAddress`, `count`, `transactionId` in `0..65535`, `_build_request_packet`
returns exactly the specified bytes: for TCP-MBAP the 12-byte sequence
`[transactionId:u16][protocolId=0:u16][length=6:u16][unitId:u8][functionCode:u8][startAddress:u16][count:u16]`
with multi-byte fields big-endian, and for RTU / RTU-over-TCP the 8-byte
sequence `[unitId:u8][functionCode:u8][startAddress:u16][count:u16]` followed
by the 2-byte CRC16 of every preceding byte, low byte first; in particular the
two test vectors of the claim hold. -/
theorem C1_buildRequest_bytes (unit_id func_code start_address count transaction_id : Nat)
    (hu : unit_id < 256) (hf : func_code < 256) (ha : start_address < 65536)
    (hc : count < 65536) (ht : transaction_id < 65536) :
    _build_request_packet .tcpMbap unit_id func_code start_address count transaction_id =
      some [transaction_id / 256, transaction_id % 256, 0, 0, 0, 6, unit_id, func_code,
        start_address / 256, start_address % 256, count / 256, count % 256] ∧
    (∃ crc, _calculate_crc [unit_id, func_code, start_address / 256, start_address % 256,
        count / 256, count % 256] = some crc ∧ crc.length = 2 ∧
      _build_request_packet .rtuFrame unit_id func_code start_address count transaction_id =
        some ([unit_id, func_code, start_address / 256, start_address % 256,
          count / 256, count % 256] ++ crc)) ∧
    _build_request_packet .tcpMbap 1 3 0 1 5 = some [0x00, 0x05, 0, 0, 0, 6, 1, 3, 0, 0, 0, 1] ∧
    _build_request_packet .rtuFrame 1 3 0 1 0 = some [1, 3, 0, 0, 0, 1, 0x84, 0x0A] := by
  refine ⟨build_tcp_eq hu hf ha hc ht, ?_, by decide, by decide⟩
  exact ⟨_, calculate_crc_eq (by
      intro b hb
      simp only [List.mem_cons, List.not_mem_nil, or_false] at hb
      rcases hb with rfl | rfl | rfl | rfl | rfl | rfl
      · exact hu
      · exact hf
      · omega
      · exact Nat.mod_lt _ (by norm_num)
      · omega
      · exact Nat.mod_lt _ (by norm_num)),
    rfl, build_rtu_eq hu hf ha hc⟩

theorem C1_buildRequest_bytes_witness :
    _build_request_packet .tcpMbap 1 3 0 1 5 =
      some [5 / 256, 5 % 256, 0, 0, 0, 6, 1, 3, 0 / 256, 0 % 256, 1 / 256, 1 % 256] :=
  (C1_buildRequest_bytes 1 3 0 1 5 (by decide) (by decide) (by decide) (by decide) (by decide)).1

theorem unpackRegisters_spec : ∀ (data : List Nat), data.length % 2 = 0 →
    ∃ regs, unpackRegisters data = some regs ∧ regs.length = data.length / 2 ∧
      ∀ i, i < regs.length →
        regs.getD i 0 = data.getD (2 * i) 0 * 256 + data.getD (2 * i + 1) 0
  | [], _ => ⟨[], rfl, rfl, by intro i h; simp at h⟩
  | [x], h => by simp at h
  | hi :: lo :: rest, h => by
    obtain ⟨regs, h1, h2, h3⟩ := unpackRegisters_spec rest (by
      simp only [List.length_cons] at h
      omega)
    refine ⟨(hi * 256 + lo) :: regs, ?_, ?_, ?_⟩
    · simp [unpackRegisters, h1]
    · simp only [List.length_cons, h2]
      omega
    · intro i hilt
      cases i with
      | zero => simp
      | succ j =>
        have e1 : 2 * (j + 1) = 2 * j + 1 + 1 := by ring
        have e2 : 2 * (j + 1) + 1 = (2 * j + 1) + 1 + 1 := by ring
        simp only [List.getD_cons_succ, e1, e2]
        exact h3 j (by simpa using hilt)

theorem isEmpty_false_of_length {d : List Nat} {n : Nat} (h : n + 1 ≤ d.length) :
    d.isEmpty = false := by
  cases d with
  | nil => simp only [List.length_nil] at h; omega
  | cons a t => simp

/-- C2: `_parse_response_packet` decodes as specified.  For TCP-MBAP an input
shorter than 7 bytes is an error, byte 6 must equal the expected unit id
(mismatch yields a unit-id-mismatch error) and the PDU is bytes 7..; for RTU
an input shorter than 4 bytes is an error, the trailing 2-byte CRC must equal
the CRC recomputed over the preceding bytes (mismatch yields crc-mismatch) and
byte 0 of the remainder must equal the expected unit id; the shared PDU decode
maps an empty PDU to an error, a function code `>= 0x80` to an exception whose
code is `pdu[1]` if present else 0, a byte-count field unequal to
`len(pdu) - 2` to a byte-count-mismatch error, and otherwise returns the
registers as big-endian uint16 values read two bytes at a time; the claim's
two concrete examples hold. -/
theorem C2_parseResponse_decodes :
    (∀ req d u, d.length < 7 →
      _parse_response_packet .tcpMbap req d u =
        some (if d = [] then .noResponse else .tooShortTcp)) ∧
    (∀ req d u, 7 ≤ d.length → d.getD 6 0 ≠ u →
      _parse_response_packet .tcpMbap req d u = some (.unitIdMismatch u (d.getD 6 0))) ∧
    (∀ req d u, 7 ≤ d.length → d.getD 6 0 = u →
      _parse_response_packet .tcpMbap req d u = decodePdu d (d.drop 7) u) ∧
    (∀ req d u, d.length < 4 →
      _parse_response_packet .rtuFrame req d u =
        some (if d = [] then .noResponse else .tooShortRtu)) ∧
    (∀ req d u crc, 4 ≤ d.length →
      _calculate_crc (d.take (d.length - 2)) = some crc →
      d.drop (d.length - 2) ≠ crc →
      _parse_response_packet .rtuFrame req d u = some .crcError) ∧
    (∀ req d u crc, 4 ≤ d.length →
      _calculate_crc (d.take (d.length - 2)) = some crc →
      d.drop (d.length - 2) = crc →
      (d.take (d.length - 2)).getD 0 0 ≠ u →
      _parse_response_packet .rtuFrame req d u =
        some (.unitIdMismatch u ((d.take (d.length - 2)).getD 0 0))) ∧
    (∀ req d u crc, 4 ≤ d.length →
      _calculate_crc (d.take (d.length - 2)) = some crc →
      d.drop (d.length - 2) = crc →
      (d.take (d.length - 2)).getD 0 0 = u →
      _parse_response_packet .rtuFrame req d u =
        decodePdu d ((d.take (d.length - 2)).drop 1) u) ∧
    (∀ raw u, decodePdu raw [] u = some .emptyPdu) ∧
    (∀ raw u f rest, 0x80 ≤ f →
      decodePdu raw (f :: rest) u = some (.modbusException (rest.headD 0) raw)) ∧
    (∀ raw u f bc data, f < 0x80 → data.length ≠ bc →
      decodePdu raw (f :: bc :: data) u = some (.byteCountMismatch bc data.length)) ∧
    (∀ raw u f bc data, f < 0x80 → data.length = bc →
      decodePdu raw (f :: bc :: data) u =
        (unpackRegisters data).map (fun regs => .registers regs u)) ∧
    (∀ data, data.length % 2 = 0 → ∃ regs, unpackRegisters data = some regs ∧
      regs.length = data.length / 2 ∧
      ∀ i, i < regs.length →
        regs.getD i 0 = data.getD (2 * i) 0 * 256 + data.getD (2 * i + 1) 0) ∧
    _parse_response_packet .tcpMbap [] [0, 0, 0, 0, 0, 5, 1, 3, 2, 4, 0xD2] 1 =
      some (.registers [0x04D2] 1) ∧
    _parse_response_packet .rtuFrame [] [1, 3, 2, 4, 0xD2, 0xFF, 0xFF] 1 =
      some .crcError := by
  refine ⟨?_, ?_, ?_, ?_, ?_, ?_, ?_, ?_, ?_, ?_, ?_, unpackRegisters_spec, by decide, by decide⟩
  · intro req d u h
    cases d with
    | nil => simp [_parse_response_packet]
    | cons b t =>
      simp [_parse_response_packet, h]
      intro h6
      exfalso
      simp only [List.length_cons] at h
      omega
  · intro req d u h hne
    have h7 : ¬ d.length < 7 := Nat.not_lt.mpr h
    rw [List.getD_eq_getElem?_getD] at hne
    simp [_parse_response_packet, isEmpty_false_of_length h, h7, hne,
      List.getD_eq_getElem?_getD]
  · intro req d u h heq
    have h7 : ¬ d.length < 7 := Nat.not_lt.mpr h
    rw [List.getD_eq_getElem?_getD] at heq
    simp [_parse_response_packet, isEmpty_false_of_length h, h7, heq]
  · intro req d u h
    cases d with
    | nil => simp [_parse_response_packet]
    | cons b t =>
      simp [_parse_response_packet, h]
      intro h3
      exfalso
      simp only [List.length_cons] at h
      omega
  · intro req d u crc h hcrc hne
    have h4 : ¬ d.length < 4 := Nat.not_lt.mpr h
    simp [_parse_response_packet, isEmpty_false_of_length h, h4, hcrc, hne]
  · intro req d u crc h hcrc heq hne
    have h4 : ¬ d.length < 4 := Nat.not_lt.mpr h
    rw [List.getD_eq_getElem?_getD] at hne
    simp [_parse_response_packet, isEmpty_false_of_length h, h4, hcrc, heq, hne,
      List.getD_eq_getElem?_getD]
  · intro req d u crc h hcrc heq hu
    have h4 : ¬ d.length < 4 := Nat.not_lt.mpr h
    rw [List.getD_eq_getElem?_getD] at hu
    simp [_parse_response_packet, isEmpty_false_of_length h, h4, hcrc, heq, hu]
  · intro raw u
    simp [decodePdu]
  · intro raw u f rest hf
    simp [decodePdu, hf]
  · intro raw u f bc data hf hne
    simp [decodePdu, Nat.not_le.mpr hf, hne]
  · intro raw u f bc data hf heq
    simp [decodePdu, Nat.not_le.mpr hf, heq]

theorem C2_parseResponse_decodes_witness :
    _parse_response_packet .tcpMbap [] [1, 2, 3] 1 =
      some (if ([1, 2, 3] : List Nat) = [] then .noResponse else .tooShortTcp) ∧
    _parse_response_packet .tcpMbap [] [0, 0, 0, 0, 0, 5, 9, 3, 2, 4, 0xD2] 1 =
      some (.unitIdMismatch 1 ([0, 0, 0, 0, 0, 5, 9, 3, 2, 4, 0xD2].getD 6 0)) ∧
    _parse_response_packet .tcpMbap [] [0, 0, 0, 0, 0, 3, 1, 0x83, 2] 1 =
      decodePdu [0, 0, 0, 0, 0, 3, 1, 0x83, 2] ([0, 0, 0, 0, 0, 3, 1, 0x83, 2].drop 7) 1 ∧
    _parse_response_packet .rtuFrame [] [1, 2] 1 =
      some (if ([1, 2] : List Nat) = [] then .noResponse else .tooShortRtu) ∧
    _parse_response_packet .rtuFrame [] [1, 3, 2, 4, 0xD2, 0xFF, 0xFF] 1 = some .crcError ∧
    _parse_response_packet .rtuFrame [] [9, 3, 2, 4, 0xD2, 0xDB, 0x18] 1 =
      some (.unitIdMismatch 1 (([9, 3, 2, 4, 0xD2, 0xDB, 0x18].take 5).getD 0 0)) ∧
    _parse_response_packet .rtuFrame [] [1, 3, 2, 4, 0xD2, 0x3A, 0xD9] 1 =
      decodePdu [1, 3, 2, 4, 0xD2, 0x3A, 0xD9] (([1, 3, 2, 4, 0xD2, 0x3A, 0xD9].take 5).drop 1) 1 ∧
    decodePdu [0x83, 2] ([0x83] ++ [2]) 1 = some (.modbusException 2 [0x83, 2]) ∧
    decodePdu [3, 5, 0, 0] ([3] ++ [5] ++ [0, 0]) 1 = some (.byteCountMismatch 5 2) ∧
    decodePdu [3, 2, 4, 0xD2] ([3] ++ [2] ++ [4, 0xD2]) 1 =
      (unpackRegisters [4, 0xD2]).map (fun regs => .registers regs 1) ∧
    (∃ regs, unpackRegisters [4, 0xD2, 0x11, 0x22] = some regs ∧
      regs.length = ([4, 0xD2, 0x11, 0x22] : List Nat).length / 2 ∧
      ∀ i, i < regs.length →
        regs.getD i 0 = ([4, 0xD2, 0x11, 0x22] : List Nat).getD (2 * i) 0 * 256 +
          ([4, 0xD2, 0x11, 0x22] : List Nat).getD (2 * i + 1) 0) := by
  refine ⟨C2_parseResponse_decodes.1 [] [1, 2, 3] 1 (by decide),
    C2_parseResponse_decodes.2.1 [] [0, 0, 0, 0, 0, 5, 9, 3, 2, 4, 0xD2] 1 (by decide) (by decide),
    C2_parseResponse_decodes.2.2.1 [] [0, 0, 0, 0, 0, 3, 1, 0x83, 2] 1 (by decide) (by decide),
    C2_parseResponse_decodes.2.2.2.1 [] [1, 2] 1 (by decide),
    C2_parseResponse_decodes.2.2.2.2.1 [] [1, 3, 2, 4, 0xD2, 0xFF, 0xFF] 1 [0x3A, 0xD9] (by decide) (by decide) (by decide),
    C2_parseResponse_decodes.2.2.2.2.2.1 [] [9, 3, 2, 4, 0xD2, 0xDB, 0x18] 1 [0xDB, 0x18] (by decide) (by decide) (by decide) (by decide),
    C2_parseResponse_decodes.2.2.2.2.2.2.1 [] [1, 3, 2, 4, 0xD2, 0x3A, 0xD9] 1 [0x3A, 0xD9] (by decide) (by decide) (by decide) (by decide),
    C2_parseResponse_decodes.2.2.2.2.2.2.2.2.1 [0x83, 2] 1 0x83 [2] (by decide),
    C2_parseResponse_decodes.2.2.2.2.2.2.2.2.2.1 [3, 5, 0, 0] 1 3 5 [0, 0] (by decide) (by decide),
    C2_parseResponse_decodes.2.2.2.2.2.2.2.2.2.2.1 [3, 2, 4, 0xD2] 1 3 2 [4, 0xD2] (by decide) (by decide),
    C2_parseResponse_decodes.2.2.2.2.2.2.2.2.2.2.2.1 [4, 0xD2, 0x11, 0x22] (by decide)⟩

/-- C8: the claim asserts `_parse_response_packet` is total, but on a success
response whose byte-count field is odd yet equal to `len(pdu) - 2` the source's
register loop calls `struct.unpack('>H', ...)` on a single trailing byte and
raises `struct.error` (modelled as `none`): decoding the MBAP response
`00 00 00 00 00 04 01 03 01 AB` for unit 1 raises instead of returning a
`ParseResult`. -/
theorem C8_parse_raises_on_odd_byte_count :
    _parse_response_packet .tcpMbap [] [0, 0, 0, 0, 0, 4, 1, 3, 1, 0xAB] 1 = none := by
  decide

theorem decodePdu_raw_independent {r1 r2 p : List Nat} {u : Nat}
    (h : p.getD 0 0 < 0x80) : decodePdu r1 p u = decodePdu r2 p u := by
  cases p with
  | nil => rfl
  | cons f rest =>
    have hf : ¬ 0x80 ≤ f := by
      simp only [List.getD_cons_zero] at h
      omega
    simp [decodePdu, hf]

/-- C10 counterexample: two MBAP responses that differ only in their first six
header bytes do not always parse to the same result — for an exception
response, the returned dictionary's `"raw"` field echoes the whole response
(header included), so the two results differ. -/
theorem C10_counterexample :
    _parse_response_packet .tcpMbap [] [0, 0, 0, 0, 0, 3, 1, 0x83, 2] 1 ≠
      _parse_response_packet .tcpMbap [] [9, 9, 9, 9, 9, 9, 1, 0x83, 2] 1 := by
  decide

/-- C10 (amended): for TCP-MBAP, `_parse_response_packet` depends only on
response bytes 6.. and the expected unit id — it ignores the `request_packet`
argument entirely and never branches on the transaction id, protocol id or
length fields — so two MBAP responses of the same length that agree from byte
6 on parse to the same result whenever the PDU is not an exception response
(for an exception the result's raw-bytes echo reproduces the differing
headers); in particular a response whose transaction id does not echo the
request's transaction id is still accepted. -/
theorem C10_tcp_parse_header_independent (req1 req2 d1 d2 : List Nat) (u : Nat)
    (hlen : d1.length = d2.length) (htail : d1.drop 6 = d2.drop 6)
    (hfunc : (d1.drop 7).getD 0 0 < 0x80) :
    _parse_response_packet .tcpMbap req1 d1 u = _parse_response_packet .tcpMbap req2 d2 u := by
  rcases d1 with _ | ⟨a, t1⟩
  · rcases d2 with _ | ⟨b, t2⟩
    · rfl
    · simp at hlen
  · rcases d2 with _ | ⟨b, t2⟩
    · simp at hlen
    · have hget : (a :: t1)[6]?.getD 0 = (b :: t2)[6]?.getD 0 := by
        rw [← List.getElem?_drop (a :: t1) 6 0, ← List.getElem?_drop (b :: t2) 6 0, htail]
      have hdrop : (a :: t1).drop 7 = (b :: t2).drop 7 := by
        have e1 : (a :: t1).drop 7 = ((a :: t1).drop 6).drop 1 := by rw [List.drop_drop]
        have e2 : (b :: t2).drop 7 = ((b :: t2).drop 6).drop 1 := by rw [List.drop_drop]
        rw [e1, e2, htail]
      rw [hdrop] at hfunc
      simp only [_parse_response_packet, List.isEmpty_cons, Bool.false_eq_true, if_false,
        List.getD_eq_getElem?_getD, hlen, hget, hdrop]
      by_cases h7 : (b :: t2).length < 7
      · have h7' : t2.length + 1 < 7 := by simpa using h7
        simp [h7']
      · simp only [h7, if_false]
        by_cases hu : (b :: t2)[6]?.getD 0 = u
        · simp only [hu, ne_eq, not_true_eq_false, if_false]
          exact decodePdu_raw_independent hfunc
        · have hu' : ¬ t2[5]?.getD 0 = u := by simpa using hu
          have h7' : ¬ t2.length + 1 < 7 := by simpa using h7
          simp [hu', h7']

theorem C10_tcp_parse_header_independent_witness :
    _parse_response_packet .tcpMbap [] [0, 0, 0, 0, 0, 5, 1, 3, 2, 4, 0xD2] 1 =
      _parse_response_packet .tcpMbap [0xAA, 0xBB] [0xDE, 0xAD, 0xBE, 0xEF, 0xFF, 0xFF, 1, 3, 2, 4, 0xD2] 1 :=
  C10_tcp_parse_header_independent [] [0xAA, 0xBB]
    [0, 0, 0, 0, 0, 5, 1, 3, 2, 4, 0xD2] [0xDE, 0xAD, 0xBE, 0xEF, 0xFF, 0xFF, 1, 3, 2, 4, 0xD2] 1
    (by decide) (by decide) (by decide)

/-- C4: round-trip — for every `unitId` in `1..247`, `functionCode` in
`{3, 4}`, `address` in `0..65535` and `count = 1`, and for either
encapsulation, building the request with `_build_request_packet`, feeding it
to the synthetic echo responder that answers the same unit id with a single
known register value `v` (well-framed for that encapsulation), and parsing the
response with `_parse_response_packet` yields `registers [v]`. -/
theorem C4_roundtrip (enc : Encapsulation) (u f a txid v : Nat)
    (hu1 : 1 ≤ u) (hu2 : u ≤ 247) (hf : f = 3 ∨ f = 4) (ha : a < 65536)
    (ht : txid < 65536) (hv : v < 65536) (req resp : List Nat)
    (hreq : _build_request_packet enc u f a 1 txid = some req)
    (hresp : echoResponder enc req v = some resp) :
    _parse_response_packet enc req resp u = some (.registers [v] u) := by
  have hu : u < 256 := by omega
  have hf' : f < 256 := by rcases hf with rfl | rfl <;> norm_num
  have hvd : v / 256 < 256 := by omega
  have hvm : v % 256 < 256 := Nat.mod_lt _ (by norm_num)
  have hval : v / 256 * 256 + v % 256 = v := by omega
  cases enc with
  | tcpMbap =>
    rw [build_tcp_eq hu hf' ha (by norm_num) ht] at hreq
    have hreq' := Option.some.inj hreq
    subst hreq'
    simp only [echoResponder, packU16be_eq hv, Option.bind_eq_bind, Option.some_bind] at hresp
    have hresp' := Option.some.inj hresp
    subst hresp'
    have hne : ¬ u ≠ u := by simp
    rcases hf with rfl | rfl <;>
      simp [_parse_response_packet, decodePdu, unpackRegisters, List.getD, hval]
  | rtuFrame =>
    rw [build_rtu_eq hu hf' ha (by norm_num)] at hreq
    have hreq' := Option.some.inj hreq
    subst hreq'
    have hbytes : ∀ b ∈ [u, f, 2, v / 256, v % 256], b < 256 := by
      intro b hb
      simp only [List.mem_cons, List.not_mem_nil, or_false] at hb
      rcases hb with rfl | rfl | rfl | rfl | rfl
      · exact hu
      · exact hf'
      · norm_num
      · exact hvd
      · exact hvm
    simp only [echoResponder, packU16be_eq hv, Option.bind_eq_bind, Option.some_bind,
      List.cons_append, List.nil_append, List.getD_cons_zero, List.getD_cons_succ] at hresp
    rw [calculate_crc_eq hbytes] at hresp
    simp only [Option.some_bind, Option.pure_def, List.cons_append, List.nil_append] at hresp
    have hresp' := Option.some.inj hresp
    subst hresp'
    rcases hf with rfl | rfl <;>
      simp [_parse_response_packet, decodePdu, unpackRegisters, calculate_crc_eq hbytes, hval]

theorem C4_roundtrip_witness :
    _parse_response_packet .tcpMbap [0, 5, 0, 0, 0, 6, 1, 3, 0, 0, 0, 1]
      [0, 5, 0, 0, 0, 5, 1, 3, 2, 0x12, 0x34] 1 = some (.registers [0x1234] 1) :=
  C4_roundtrip .tcpMbap 1 3 0 5 0x1234 (by decide) (by decide) (Or.inl rfl) (by decide)
    (by decide) (by decide) [0, 5, 0, 0, 0, 6, 1, 3, 0, 0, 0, 1]
    [0, 5, 0, 0, 0, 5, 1, 3, 2, 0x12, 0x34] (by decide) (by decide)

theorem projCases {σ₁ σ₂ β : Type} {o₁ : Option (σ₁ × β)} {o₂ : Option (σ₂ × β)}
    (h : o₁.map (fun t => t.2) = o₂.map (fun t => t.2)) :
    (o₁ = none ∧ o₂ = none) ∨ ∃ s₁ s₂ b, o₁ = some (s₁, b) ∧ o₂ = some (s₂, b) := by
  cases o₁ with
  | none =>
    cases o₂ with
    | none => exact Or.inl ⟨rfl, rfl⟩
    | some t => simp at h
  | some t =>
    cases o₂ with
    | none => simp at h
    | some t2 =>
      simp only [Option.map_some'] at h
      injection h with h2
      exact Or.inr ⟨t.1, t2.1, t.2, by cases t; rfl, by cases t; cases t2; simp_all⟩

theorem attemptLoop_proj {σ₁ σ₂ : Type} (cb₁ : LogEvent → σ₁ → σ₁) (cb₂ : LogEvent → σ₂ → σ₂)
    (enc : Encapsulation) (oracle : Nat → AttemptBehavior) (u r : Nat) :
    ∀ (fuel idx : Nat) (conn : Bool) (s₁ : σ₁) (s₂ : σ₂),
      (attemptLoop cb₁ enc oracle u r fuel idx conn s₁).map (fun t => t.2) =
      (attemptLoop cb₂ enc oracle u r fuel idx conn s₂).map (fun t => t.2) := by
  intro fuel
  induction fuel with
  | zero => intro idx conn s₁ s₂; rfl
  | succ n ih =>
    intro idx conn s₁ s₂
    simp only [attemptLoop]
    by_cases hcf : conn = false ∧ (oracle idx).connectOk = false
    · simp only [if_pos hcf]
      exact ih (idx + 1) false _ _
    · simp only [if_neg hcf]
      cases hex : (oracle idx).exchange with
      | none => exact ih (idx + 1) false _ _
      | some data =>
        cases hp : _parse_response_packet enc [] data u with
        | none => simp [hp]
        | some p =>
          cases hcl : classify p with
          | none =>
            simp only [hp, hcl]
            exact ih (idx + 1) true _ _
          | some o => simp [hp, hcl]

theorem scanTcpSeqAux_proj {σ₁ σ₂ : Type} (cb₁ : LogEvent → σ₁ → σ₁)
    (cb₂ : LogEvent → σ₂ → σ₂) (enc : Encapsulation)
    (oracle : Nat → Nat → AttemptBehavior) (r retries : Nat) :
    ∀ (units : List Nat) (conn : Bool) (s₁ : σ₁) (s₂ : σ₂),
      (scanTcpSeqAux cb₁ enc oracle r retries units conn s₁).map (fun t => t.2) =
      (scanTcpSeqAux cb₂ enc oracle r retries units conn s₂).map (fun t => t.2) := by
  intro units
  induction units with
  | nil => intro conn s₁ s₂; rfl
  | cons u rest ih =>
    intro conn s₁ s₂
    simp only [scanTcpSeqAux]
    rcases projCases (attemptLoop_proj cb₁ cb₂ enc (oracle u) u r (retries + 1) 0 conn s₁ s₂) with
      ⟨h1, h2⟩ | ⟨t1, t2, b, h1, h2⟩
    · rw [h1, h2]
      rfl
    · obtain ⟨conn1, res⟩ := b
      rw [h1, h2]
      cases res with
      | none =>
        rcases projCases (ih conn1 (cb₁ (.noResponseLogged u) t1) (cb₂ (.noResponseLogged u) t2)) with
          ⟨g1, g2⟩ | ⟨w1, w2, tail, g1, g2⟩
        · simp [g1, g2]
        · simp [g1, g2]
      | some x =>
        rcases projCases (ih conn1 t1 t2) with ⟨g1, g2⟩ | ⟨w1, w2, tail, g1, g2⟩
        · simp [g1, g2]
        · simp [g1, g2]

theorem scanOneLoop_proj {σ₁ σ₂ : Type} (cb₁ : LogEvent → σ₁ → σ₁) (cb₂ : LogEvent → σ₂ → σ₂)
    (enc : Encapsulation) (oracle : Nat → AttemptBehavior) (u r : Nat) :
    ∀ (fuel idx : Nat) (s₁ : σ₁) (s₂ : σ₂),
      (scanOneLoop cb₁ enc oracle u r fuel idx s₁).map (fun t => t.2) =
      (scanOneLoop cb₂ enc oracle u r fuel idx s₂).map (fun t => t.2) := by
  intro fuel
  induction fuel with
  | zero => intro idx s₁ s₂; rfl
  | succ n ih =>
    intro idx s₁ s₂
    simp only [scanOneLoop]
    by_cases hcf : (oracle idx).connectOk = false
    · simp only [if_pos hcf]
      exact ih (idx + 1) _ _
    · simp only [if_neg hcf]
      cases hex : (oracle idx).exchange with
      | none => exact ih (idx + 1) _ _
      | some data =>
        cases hp : _parse_response_packet enc [] data u with
        | none => simp [hp]
        | some p =>
          cases hcl : classify p with
          | none =>
            simp only [hp, hcl]
            exact ih (idx + 1) _ _
          | some o => simp [hp, hcl]

theorem countSendingFor_append (u : Nat) (a b : List LogEvent) :
    countSendingFor u (a ++ b) = countSendingFor u a + countSendingFor u b := by
  simp [countSendingFor, List.filter_append]

theorem countSendingFor_connecting (u : Nat) : countSendingFor u [.connecting] = 0 := rfl

theorem countSendingFor_connected (u : Nat) : countSendingFor u [.connected] = 0 := rfl

theorem countSendingFor_connectFailed (u : Nat) : countSendingFor u [.connectFailed] = 0 := rfl

theorem countSendingFor_received (u w : Nat) (d : List Nat) :
    countSendingFor u [.received w d] = 0 := rfl

theorem countSendingFor_parsingError (u w : Nat) : countSendingFor u [.parsingError w] = 0 := rfl

theorem countSendingFor_errorLogged (u w : Nat) : countSendingFor u [.errorLogged w] = 0 := rfl

theorem countSendingFor_noResponseLogged (u w : Nat) :
    countSendingFor u [.noResponseLogged w] = 0 := rfl

theorem countSendingFor_sending_self (u i : Nat) : countSendingFor u [.sending u i] = 1 := by
  simp [countSendingFor]

theorem countSendingFor_sending_other {u w : Nat} (h : w ≠ u) (i : Nat) :
    countSendingFor u [.sending w i] = 0 := by
  simp [countSendingFor, h]

theorem countSendingFor_singleton_le (u : Nat) (e : LogEvent) : countSendingFor u [e] ≤ 1 := by
  rcases e with _ | _ | _ | ⟨w, i⟩ | ⟨w, d⟩ | w | w | w | w | _
  case sending =>
    by_cases h : w = u
    · subst h; simp [countSendingFor_sending_self]
    · simp [countSendingFor_sending_other h]
  all_goals simp [countSendingFor]

theorem countSendingFor_connect_state (u : Nat) (conn : Bool) (s : List LogEvent) :
    countSendingFor u (if conn = true then s else logCb .connected (logCb .connecting s)) =
      countSendingFor u s := by
  cases conn with
  | true => simp
  | false =>
    simp only [Bool.false_eq_true, if_false, logCb, List.append_assoc,
      List.singleton_append, countSendingFor_append]
    rfl

theorem countSendingFor_if_conn (u : Nat) (conn : Bool) (s : List LogEvent) :
    countSendingFor u (if conn = true then s else s ++ [.connecting] ++ [.connected]) =
      countSendingFor u s := by
  cases conn with
  | true => simp
  | false =>
    simp only [Bool.false_eq_true, if_false, countSendingFor_append,
      countSendingFor_connecting, countSendingFor_connected, Nat.add_zero]

theorem attemptLoop_sending_count {enc : Encapsulation} {oracle : Nat → AttemptBehavior}
    {w r : Nat} : ∀ (fuel idx : Nat) (conn : Bool) (s s' : List LogEvent) (c' : Bool)
    (res : Option ScanRes),
    attemptLoop logCb enc oracle w r fuel idx conn s = some (s', c', res) →
    ∀ u, countSendingFor u s' ≤ countSendingFor u s + fuel ∧
      (w ≠ u → countSendingFor u s' = countSendingFor u s) := by
  intro fuel
  induction fuel with
  | zero =>
    intro idx conn s s' c' res h u
    simp only [attemptLoop, Option.some.injEq, Prod.mk.injEq] at h
    obtain ⟨rfl, -, -⟩ := h
    omega
  | succ n ih =>
    intro idx conn s s' c' res h u
    simp only [attemptLoop] at h
    by_cases hcf : conn = false ∧ (oracle idx).connectOk = false
    · rw [if_pos hcf] at h
      have hih := ih (idx + 1) false _ _ _ _ h u
      have hc : countSendingFor u (logCb .connectFailed (logCb .connecting s)) =
          countSendingFor u s := by
        simp only [logCb, countSendingFor_append, countSendingFor_connecting,
          countSendingFor_connectFailed, Nat.add_zero]
      omega
    · rw [if_neg hcf] at h
      cases hex : (oracle idx).exchange with
      | none =>
        simp only [hex] at h
        have hih := ih (idx + 1) false _ _ _ _ h u
        have hc : countSendingFor u (logCb (.sending w idx)
            (if conn = true then s else logCb .connected (logCb .connecting s))) ≤
              countSendingFor u s + 1 ∧
            (w ≠ u → countSendingFor u (logCb (.sending w idx)
              (if conn = true then s else logCb .connected (logCb .connecting s))) =
              countSendingFor u s) := by
          constructor
          · simp only [logCb, countSendingFor_append, countSendingFor_if_conn]
            have := countSendingFor_singleton_le u (.sending w idx)
            omega
          · intro hne
            simp only [logCb, countSendingFor_append, countSendingFor_if_conn,
              countSendingFor_sending_other hne, Nat.add_zero]
        obtain ⟨hc1, hc2⟩ := hc
        obtain ⟨hih1, hih2⟩ := hih
        constructor
        · omega
        · intro hne
          rw [hih2 hne, hc2 hne]
      | some data =>
        simp only [hex] at h
        cases hp : _parse_response_packet enc [] data w with
        | none => simp [hp] at h
        | some p =>
          simp only [hp] at h
          cases hcl : classify p with
          | none =>
            simp only [hcl] at h
            have hih := ih (idx + 1) true _ _ _ _ h u
            have hc1 : countSendingFor u (logCb (.parsingError w) (logCb (.received w data)
                (logCb (.sending w idx)
                  (if conn = true then s else logCb .connected (logCb .connecting s))))) ≤
                countSendingFor u s + 1 := by
              simp only [logCb, countSendingFor_append, countSendingFor_if_conn,
                countSendingFor_received, countSendingFor_parsingError]
              have := countSendingFor_singleton_le u (.sending w idx)
              omega
            have hc2 : w ≠ u → countSendingFor u (logCb (.parsingError w)
                (logCb (.received w data) (logCb (.sending w idx)
                  (if conn = true then s else logCb .connected (logCb .connecting s))))) =
                countSendingFor u s := by
              intro hne
              simp only [logCb, countSendingFor_append, countSendingFor_if_conn,
                countSendingFor_received, countSendingFor_parsingError,
                countSendingFor_sending_other hne, Nat.add_zero]
            obtain ⟨hih1, hih2⟩ := hih
            constructor
            · omega
            · intro hne
              rw [hih2 hne, hc2 hne]
          | some o =>
            simp only [hcl, Option.some.injEq, Prod.mk.injEq] at h
            obtain ⟨rfl, -, -⟩ := h
            constructor
            · simp only [logCb, countSendingFor_append, countSendingFor_if_conn,
                countSendingFor_received]
              have := countSendingFor_singleton_le u (.sending w idx)
              omega
            · intro hne
              simp only [logCb, countSendingFor_append, countSendingFor_if_conn,
                countSendingFor_received, countSendingFor_sending_other hne, Nat.add_zero]

theorem attemptLoop_res_unit {σ : Type} {cb : LogEvent → σ → σ} {enc : Encapsulation}
    {oracle : Nat → AttemptBehavior} {w r : Nat} : ∀ (fuel idx : Nat) (conn : Bool)
    (s : σ) (s' : σ) (c' : Bool) (res : Option ScanRes),
    attemptLoop cb enc oracle w r fuel idx conn s = some (s', c', res) →
    ∀ x, res = some x → x.unitId = w ∧ x.register = r := by
  intro fuel
  induction fuel with
  | zero =>
    intro idx conn s s' c' res h x hx
    simp only [attemptLoop, Option.some.injEq, Prod.mk.injEq] at h
    obtain ⟨-, -, hres⟩ := h
    rw [← hres] at hx
    cases hx
  | succ n ih =>
    intro idx conn s s' c' res h x hx
    simp only [attemptLoop] at h
    by_cases hcf : conn = false ∧ (oracle idx).connectOk = false
    · rw [if_pos hcf] at h
      exact ih _ _ _ _ _ _ h x hx
    · rw [if_neg hcf] at h
      cases hex : (oracle idx).exchange with
      | none =>
        simp only [hex] at h
        exact ih _ _ _ _ _ _ h x hx
      | some data =>
        simp only [hex] at h
        cases hp : _parse_response_packet enc [] data w with
        | none => simp [hp] at h
        | some p =>
          simp only [hp] at h
          cases hcl : classify p with
          | none =>
            simp only [hcl] at h
            exact ih _ _ _ _ _ _ h x hx
          | some o =>
            simp only [hcl, Option.some.injEq, Prod.mk.injEq] at h
            obtain ⟨-, -, hres⟩ := h
            rw [← hres] at hx
            injection hx with hx'
            rw [← hx']
            exact ⟨rfl, rfl⟩

theorem attemptLoop_inconclusive {enc : Encapsulation} {oracle : Nat → AttemptBehavior}
    {w r : Nat} (hinc : ∀ i, inconclusiveBehavior enc w (oracle i)) :
    ∀ (fuel idx : Nat) (conn : Bool) (s : List LogEvent),
    ∃ s' c', attemptLoop logCb enc oracle w r fuel idx conn s = some (s', c', none) := by
  intro fuel
  induction fuel with
  | zero => intro idx conn s; exact ⟨s, conn, rfl⟩
  | succ n ih =>
    intro idx conn s
    simp only [attemptLoop]
    by_cases hcf : conn = false ∧ (oracle idx).connectOk = false
    · rw [if_pos hcf]
      exact ih _ _ _
    · rw [if_neg hcf]
      rcases hinc idx with hb | ⟨data, p, hdata, hp, hcl⟩
      · rw [hb]
        exact ih _ _ _
      · rw [hdata]
        simp only [hp, hcl]
        exact ih _ _ _

theorem attemptLoop_simTransport {enc : Encapsulation} {u r k : Nat} {frame : List Nat}
    {p : ParseResult} {o : Outcome}
    (hp : _parse_response_packet enc [] frame u = some p) (hcl : classify p = some o) :
    ∀ (fuel idx : Nat) (conn : Bool) (s : List LogEvent), idx ≤ k → k < idx + fuel →
    ∃ s', attemptLoop logCb enc (simTransport k frame) u r fuel idx conn s =
        some (s', true, some ⟨u, r, o⟩) ∧
      countSendingFor u s' = countSendingFor u s + (k - idx + 1) := by
  intro fuel
  induction fuel with
  | zero => intro idx conn s h1 h2; omega
  | succ n ih =>
    intro idx conn s h1 h2
    simp only [attemptLoop]
    have hconn : ¬ (conn = false ∧ (simTransport k frame idx).connectOk = false) := by
      simp [simTransport]
    rw [if_neg hconn]
    by_cases hik : idx < k
    · have hex : (simTransport k frame idx).exchange = none := by simp [simTransport, hik]
      rw [hex]
      obtain ⟨s', hrun, hcount⟩ := ih (idx + 1)
        false (logCb (.sending u idx) (if conn = true then s
          else logCb .connected (logCb .connecting s))) (by omega) (by omega)
      refine ⟨s', hrun, ?_⟩
      have hS : countSendingFor u (logCb (.sending u idx) (if conn = true then s
          else logCb .connected (logCb .connecting s))) = countSendingFor u s + 1 := by
        simp only [logCb, countSendingFor_append, countSendingFor_if_conn,
          countSendingFor_sending_self]
      omega
    · have hex : (simTransport k frame idx).exchange = some frame := by
        simp [simTransport, hik]
      rw [hex]
      simp only [hp, hcl]
      refine ⟨_, rfl, ?_⟩
      have hidx : idx = k := by omega
      simp only [logCb, countSendingFor_append, countSendingFor_if_conn,
        countSendingFor_sending_self, countSendingFor_received]
      omega

theorem scanTcpSeqAux_count_le {σ : Type} {cb : LogEvent → σ → σ} {enc : Encapsulation}
    {oracle : Nat → Nat → AttemptBehavior} {r retries : Nat} :
    ∀ (units : List Nat) (conn : Bool) (s s' : σ) (results : List ScanRes),
    scanTcpSeqAux cb enc oracle r retries units conn s = some (s', results) →
    ∀ u, (results.filter (fun x => x.unitId == u)).length ≤ units.count u := by
  intro units
  induction units with
  | nil =>
    intro conn s s' results h u
    simp only [scanTcpSeqAux, Option.some.injEq, Prod.mk.injEq] at h
    obtain ⟨-, hres⟩ := h
    rw [← hres]
    simp
  | cons w rest ih =>
    intro conn s s' results h u
    simp only [scanTcpSeqAux] at h
    cases h1 : attemptLoop cb enc (oracle w) w r (retries + 1) 0 conn s with
    | none => simp [h1] at h
    | some t =>
      obtain ⟨s1, conn1, res⟩ := t
      simp only [h1] at h
      cases res with
      | none =>
        cases h2 : scanTcpSeqAux cb enc oracle r retries rest conn1
            (cb (.noResponseLogged w) s1) with
        | none => simp [h2] at h
        | some t2 =>
          obtain ⟨s2, tail⟩ := t2
          simp only [h2, Option.some.injEq, Prod.mk.injEq] at h
          obtain ⟨-, hres⟩ := h
          rw [← hres]
          have := ih conn1 _ _ _ h2 u
          simp only [Option.toList_none, List.nil_append, List.count_cons]
          split <;> omega
      | some x =>
        have hx := attemptLoop_res_unit _ _ _ _ _ _ _ h1 x rfl
        cases h2 : scanTcpSeqAux cb enc oracle r retries rest conn1 s1 with
        | none => simp [h2] at h
        | some t2 =>
          obtain ⟨s2, tail⟩ := t2
          simp only [h2, Option.some.injEq, Prod.mk.injEq] at h
          obtain ⟨-, hres⟩ := h
          rw [← hres]
          have htail := ih conn1 _ _ _ h2 u
          simp only [Option.toList_some, List.singleton_append]
          by_cases hxu : x.unitId = u
          · have hwu : u = w := by rw [← hxu, hx.1]
            rw [List.filter_cons_of_pos (by simp [hxu]), List.count_cons]
            simp only [List.length_cons]
            have hone : (if (w == u) = true then 1 else 0) = 1 := by simp [hwu]
            omega
          · rw [List.filter_cons_of_neg (by simp [hxu]), List.count_cons]
            split <;> omega

theorem simTransport_inconclusive {enc : Encapsulation} {u k : Nat} {frame : List Nat}
    (hother : ∀ w, w ≠ u →
      ∃ pw, _parse_response_packet enc [] frame w = some pw ∧ classify pw = none)
    {w : Nat} (hw : w ≠ u) : ∀ i, inconclusiveBehavior enc w (simTransport k frame i) := by
  intro i
  by_cases hik : i < k
  · left
    simp [simTransport, hik]
  · right
    obtain ⟨pw, hpw, hclw⟩ := hother w hw
    exact ⟨frame, pw, by simp [simTransport, hik], hpw, hclw⟩

theorem scenario_scan_zero {enc : Encapsulation} {u r k retries : Nat} {frame : List Nat}
    (hother : ∀ w, w ≠ u →
      ∃ pw, _parse_response_packet enc [] frame w = some pw ∧ classify pw = none) :
    ∀ (units : List Nat), u ∉ units → ∀ (conn : Bool) (s : List LogEvent),
    ∃ s' results,
      scanTcpSeqAux logCb enc (fun _ => simTransport k frame) r retries units conn s =
        some (s', results) ∧
      (results.filter (fun x => x.unitId == u)).length = 0 ∧
      countSendingFor u s' = countSendingFor u s := by
  intro units
  induction units with
  | nil => intro _ conn s; exact ⟨s, [], rfl, rfl, rfl⟩
  | cons w rest ih =>
    intro hmem conn s
    have hw : w ≠ u := fun hh => hmem (hh ▸ List.mem_cons_self w rest)
    obtain ⟨s1, c1, hrun⟩ :=
      @attemptLoop_inconclusive enc (simTransport k frame) w r
        (simTransport_inconclusive hother hw) (retries + 1) 0 conn s
    obtain ⟨s2, tail, hrec, hcnt, hcount⟩ :=
      ih (fun hh => hmem (List.mem_cons_of_mem w hh)) c1 (logCb (.noResponseLogged w) s1)
    refine ⟨s2, tail, ?_, hcnt, ?_⟩
    · simp only [scanTcpSeqAux, hrun, hrec]
      rfl
    · have h1 := (attemptLoop_sending_count (retries + 1) 0 conn s s1 c1 none hrun u).2 hw
      have h2 : countSendingFor u (logCb (.noResponseLogged w) s1) = countSendingFor u s1 := by
        simp only [logCb, countSendingFor_append, countSendingFor_noResponseLogged,
          Nat.add_zero]
      omega

theorem scenario_scan_one {enc : Encapsulation} {u r k retries : Nat} {frame : List Nat}
    {p : ParseResult} {o : Outcome} (hk : k < retries + 1)
    (hp : _parse_response_packet enc [] frame u = some p) (hcl : classify p = some o)
    (hother : ∀ w, w ≠ u →
      ∃ pw, _parse_response_packet enc [] frame w = some pw ∧ classify pw = none) :
    ∀ (units : List Nat), units.count u = 1 → ∀ (conn : Bool) (s : List LogEvent),
    ∃ s' results,
      scanTcpSeqAux logCb enc (fun _ => simTransport k frame) r retries units conn s =
        some (s', results) ∧
      (results.filter (fun x => x.unitId == u)).length = 1 ∧
      countSendingFor u s' = countSendingFor u s + (k + 1) := by
  intro units
  induction units with
  | nil => intro hcount; simp at hcount
  | cons w rest ih =>
    intro hcount conn s
    by_cases hw : w = u
    · have hrest : u ∉ rest := by
        rw [List.count_cons] at hcount
        have hbe : (w == u) = true := by simp [hw]
        rw [hbe, if_pos rfl] at hcount
        rw [← List.count_eq_zero]
        omega
      obtain ⟨s1, hrun, hcnt1⟩ := @attemptLoop_simTransport enc u r k frame p o hp hcl
        (retries + 1) 0 conn s (Nat.zero_le k) (by omega)
      obtain ⟨s2, tail, hrec, hcnt2, hcnt3⟩ :=
        @scenario_scan_zero enc u r k retries frame hother rest hrest true s1
      refine ⟨s2, ⟨u, r, o⟩ :: tail, ?_, ?_, ?_⟩
      · simp only [scanTcpSeqAux]
        rw [hw]
        simp only [hrun, hrec, Option.toList_some, List.singleton_append]
      · rw [List.filter_cons_of_pos (by simp)]
        simp [hcnt2]
      · omega
    · have hw' : w ≠ u := hw
      have hrest : rest.count u = 1 := by
        rw [List.count_cons] at hcount
        have hbe : (w == u) = false := by
          simp only [beq_eq_false_iff_ne, ne_eq]
          exact hw
        rw [hbe] at hcount
        simpa using hcount
      obtain ⟨s1, c1, hrun⟩ :=
        @attemptLoop_inconclusive enc (simTransport k frame) w r
          (simTransport_inconclusive hother hw') (retries + 1) 0 conn s
      obtain ⟨s2, tail, hrec, hcnt, hcount2⟩ :=
        ih hrest c1 (logCb (.noResponseLogged w) s1)
      refine ⟨s2, tail, ?_, hcnt, ?_⟩
      · simp only [scanTcpSeqAux, hrun, hrec]
        rfl
      · have h1 := (attemptLoop_sending_count (retries + 1) 0 conn s s1 c1 none hrun u).2 hw'
        have h2 : countSendingFor u (logCb (.noResponseLogged w) s1) =
            countSendingFor u s1 := by
          simp only [logCb, countSendingFor_append, countSendingFor_noResponseLogged,
            Nat.add_zero]
        omega

theorem scanOneLoop_simTransport {enc : Encapsulation} {u r k : Nat} {frame : List Nat}
    {p : ParseResult} {o : Outcome}
    (hp : _parse_response_packet enc [] frame u = some p) (hcl : classify p = some o) :
    ∀ (fuel idx : Nat) (s : List LogEvent), idx ≤ k → k < idx + fuel →
    ∃ s', scanOneLoop logCb enc (simTransport k frame) u r fuel idx s =
        some (s', some ⟨u, r, o⟩) ∧
      countSendingFor u s' = countSendingFor u s + (k - idx + 1) := by
  intro fuel
  induction fuel with
  | zero => intro idx s h1 h2; omega
  | succ n ih =>
    intro idx s h1 h2
    simp only [scanOneLoop]
    have hcf : ¬ (simTransport k frame idx).connectOk = false := by simp [simTransport]
    rw [if_neg hcf]
    by_cases hik : idx < k
    · have hex : (simTransport k frame idx).exchange = none := by simp [simTransport, hik]
      rw [hex]
      obtain ⟨s', hrun, hcount⟩ := ih (idx + 1)
        (logCb (.errorLogged u) (logCb (.sending u idx) (logCb .connecting s)))
        (by omega) (by omega)
      refine ⟨s', hrun, ?_⟩
      have hS : countSendingFor u (logCb (.errorLogged u) (logCb (.sending u idx)
          (logCb .connecting s))) = countSendingFor u s + 1 := by
        simp only [logCb, countSendingFor_append, countSendingFor_connecting,
          countSendingFor_sending_self, countSendingFor_errorLogged]
      omega
    · have hex : (simTransport k frame idx).exchange = some frame := by
        simp [simTransport, hik]
      rw [hex]
      simp only [hp, hcl]
      refine ⟨_, rfl, ?_⟩
      simp only [logCb, countSendingFor_append, countSendingFor_connecting,
        countSendingFor_sending_self, countSendingFor_received]
      omega

/-- C5: for every unit id the orchestrator makes at most `retries + 1`
attempts; it stops attempting a unit id as soon as a conclusive
classification is obtained (non-empty registers, empty registers, or a
Modbus exception), recording that attempt's outcome; at most one outcome per
unit id is recorded over the whole scan; a unit id all of whose attempts are
inconclusive is omitted from the results; and with a simulated transport
that fails the first `k < retries` attempts and then succeeds, the unit id
appears in the final outcome exactly once with exactly `k + 1` request
attempts logged — stated for the persistent sequential strategy and, where
it applies, for the ephemeral `scan_one` strategy. -/
theorem C5_retry_and_recording :
    (∀ (enc : Encapsulation) (oracle : Nat → AttemptBehavior) (u r retries : Nat)
      (conn : Bool) (s s' : List LogEvent) (c' : Bool) (res : Option ScanRes),
      attemptLoop logCb enc oracle u r (retries + 1) 0 conn s = some (s', c', res) →
      countSendingFor u s' ≤ countSendingFor u s + (retries + 1)) ∧
    (∀ (enc : Encapsulation) (u r k fuel : Nat) (frame : List Nat) (p : ParseResult)
      (o : Outcome) (conn : Bool) (s : List LogEvent), k < fuel →
      _parse_response_packet enc [] frame u = some p → classify p = some o →
      ∃ s', attemptLoop logCb enc (simTransport k frame) u r fuel 0 conn s =
          some (s', true, some ⟨u, r, o⟩) ∧
        countSendingFor u s' = countSendingFor u s + (k + 1)) ∧
    (∀ (σ : Type) (cb : LogEvent → σ → σ) (enc : Encapsulation)
      (oracle : Nat → Nat → AttemptBehavior) (r retries : Nat) (units : List Nat)
      (conn : Bool) (s s' : σ) (results : List ScanRes) (u : Nat),
      scanTcpSeqAux cb enc oracle r retries units conn s = some (s', results) →
      (results.filter (fun x => x.unitId == u)).length ≤ units.count u) ∧
    (∀ (enc : Encapsulation) (oracle : Nat → AttemptBehavior) (w r retries : Nat)
      (conn : Bool) (s : List LogEvent),
      (∀ i, inconclusiveBehavior enc w (oracle i)) →
      ∃ s' c', attemptLoop logCb enc oracle w r (retries + 1) 0 conn s =
        some (s', c', none)) ∧
    (∀ (enc : Encapsulation) (u r k retries su eu : Nat) (frame : List Nat)
      (p : ParseResult) (o : Outcome), k < retries → su ≤ u → u ≤ eu →
      _parse_response_packet enc [] frame u = some p → classify p = some o →
      (∀ w, w ≠ u →
        ∃ pw, _parse_response_packet enc [] frame w = some pw ∧ classify pw = none) →
      ∃ log results,
        scan_tcp_seq logCb enc (fun _ => simTransport k frame) su eu r retries [] =
          some (log, results) ∧
        (results.filter (fun x => x.unitId == u)).length = 1 ∧
        countSendingFor u log = k + 1) ∧
    (∀ (enc : Encapsulation) (u r k fuel : Nat) (frame : List Nat) (p : ParseResult)
      (o : Outcome) (s : List LogEvent), k < fuel →
      _parse_response_packet enc [] frame u = some p → classify p = some o →
      ∃ s', scanOneLoop logCb enc (simTransport k frame) u r fuel 0 s =
          some (s', some ⟨u, r, o⟩) ∧
        countSendingFor u s' = countSendingFor u s + (k + 1)) := by
  refine ⟨?_, ?_, ?_, ?_, ?_, ?_⟩
  · intro enc oracle u r retries conn s s' c' res h
    exact (attemptLoop_sending_count (retries + 1) 0 conn s s' c' res h u).1
  · intro enc u r k fuel frame p o conn s hk hp hcl
    obtain ⟨s', hrun, hcount⟩ := attemptLoop_simTransport hp hcl fuel 0 conn s
      (Nat.zero_le k) (by omega)
    exact ⟨s', hrun, by simpa using hcount⟩
  · intro σ cb enc oracle r retries units conn s s' results u h
    exact scanTcpSeqAux_count_le units conn s s' results h u
  · intro enc oracle w r retries conn s hinc
    exact attemptLoop_inconclusive hinc (retries + 1) 0 conn s
  · intro enc u r k retries su eu frame p o hk hsu heu hp hcl hother
    have hcount : (List.range' su (eu + 1 - su)).count u = 1 := by
      refine List.count_eq_one_of_mem (List.nodup_range' su (eu + 1 - su) 1 (by norm_num)) ?_
      rw [List.mem_range'_1]
      omega
    obtain ⟨log, results, hrun, hfilter, hcnt⟩ :=
      scenario_scan_one (Nat.lt_succ_of_lt hk) hp hcl hother
        (List.range' su (eu + 1 - su)) hcount false []
    refine ⟨log, results, hrun, hfilter, ?_⟩
    have h0 : countSendingFor u ([] : List LogEvent) = 0 := rfl
    omega
  · intro enc u r k fuel frame p o s hk hp hcl
    obtain ⟨s', hrun, hcount⟩ := scanOneLoop_simTransport hp hcl fuel 0 s
      (Nat.zero_le k) (by omega)
    exact ⟨s', hrun, by simpa using hcount⟩

theorem C5_retry_and_recording_witness :
    countSendingFor 1 [.connecting, .connected, .sending 1 0,
        .received 1 [0, 0, 0, 0, 0, 5, 1, 3, 2, 4, 0xD2]] ≤
      countSendingFor 1 [] + (0 + 1) ∧
    (∃ s', attemptLoop logCb .tcpMbap (simTransport 0 [0, 0, 0, 0, 0, 5, 1, 3, 2, 4, 0xD2])
        1 0 2 0 false [] = some (s', true, some ⟨1, 0, .found 0x04D2⟩) ∧
      countSendingFor 1 s' = countSendingFor 1 [] + (0 + 1)) ∧
    (List.filter (fun x => x.unitId == 1)
        [(⟨1, 0, .found 0x04D2⟩ : ScanRes)]).length ≤ List.count 1 [1, 2] ∧
    (∃ s' c', attemptLoop logCb .tcpMbap (fun _ => ⟨false, none⟩) 3 0 (1 + 1) 0 false [] =
      some (s', c', none)) ∧
    (∃ log results, scan_tcp_seq logCb .tcpMbap
        (fun _ => simTransport 0 [0, 0, 0, 0, 0, 5, 1, 3, 2, 4, 0xD2]) 1 2 0 1 [] =
        some (log, results) ∧
      (results.filter (fun x => x.unitId == 1)).length = 1 ∧
      countSendingFor 1 log = 0 + 1) ∧
    (∃ s', scanOneLoop logCb .tcpMbap (simTransport 0 [0, 0, 0, 0, 0, 5, 1, 3, 2, 4, 0xD2])
        1 0 2 0 [] = some (s', some ⟨1, 0, .found 0x04D2⟩) ∧
      countSendingFor 1 s' = countSendingFor 1 [] + (0 + 1)) :=
  ⟨C5_retry_and_recording.1 .tcpMbap (simTransport 0 [0, 0, 0, 0, 0, 5, 1, 3, 2, 4, 0xD2])
      1 0 0 false [] [.connecting, .connected, .sending 1 0,
        .received 1 [0, 0, 0, 0, 0, 5, 1, 3, 2, 4, 0xD2]] true
      (some ⟨1, 0, .found 0x04D2⟩) (by decide),
    C5_retry_and_recording.2.1 .tcpMbap 1 0 0 2 [0, 0, 0, 0, 0, 5, 1, 3, 2, 4, 0xD2]
      (.registers [0x04D2] 1) (.found 0x04D2) false [] (by decide) (by decide) (by decide),
    C5_retry_and_recording.2.2.1 (List LogEvent) logCb .tcpMbap
      (fun _ => simTransport 0 [0, 0, 0, 0, 0, 5, 1, 3, 2, 4, 0xD2]) 0 0 [1, 2] false []
      [.connecting, .connected, .sending 1 0,
        .received 1 [0, 0, 0, 0, 0, 5, 1, 3, 2, 4, 0xD2], .sending 2 0,
        .received 2 [0, 0, 0, 0, 0, 5, 1, 3, 2, 4, 0xD2], .parsingError 2,
        .noResponseLogged 2]
      [⟨1, 0, .found 0x04D2⟩] 1 (by decide),
    C5_retry_and_recording.2.2.2.1 .tcpMbap (fun _ => ⟨false, none⟩) 3 0 1 false []
      (fun _ => Or.inl rfl),
    C5_retry_and_recording.2.2.2.2.1 .tcpMbap 1 0 0 1 1 2
      [0, 0, 0, 0, 0, 5, 1, 3, 2, 4, 0xD2] (.registers [0x04D2] 1) (.found 0x04D2)
      (by decide) (by decide) (by decide) (by decide) (by decide)
      (fun w hw => ⟨.unitIdMismatch w 1, by
        have h1w : (1 : Nat) ≠ w := fun hh => hw hh.symm
        simp [_parse_response_packet, h1w], rfl⟩),
    C5_retry_and_recording.2.2.2.2.2 .tcpMbap 1 0 0 2 [0, 0, 0, 0, 0, 5, 1, 3, 2, 4, 0xD2]
      (.registers [0x04D2] 1) (.found 0x04D2) [] (by decide) (by decide) (by decide)⟩

theorem scan_unit_crashes (read : Nat → Option Nat) (u register fuel idx : Nat) :
    scan_unit read u register (fuel + 1) idx = none := by
  simp [scan_unit, scan_unit_read, callWithKeyword, modbusHubReadParams]

theorem finalFoundDevices_sorted_perm (found : List FoundDevice) :
    (finalFoundDevices found).Pairwise (fun a b => a.unitId ≤ b.unitId) ∧
    (finalFoundDevices found).Perm found := by
  constructor
  · unfold finalFoundDevices
    refine List.Pairwise.imp ?_ (List.sorted_mergeSort ?_ ?_ found)
    · intro a b hab
      exact of_decide_eq_true hab
    · intro a b c h1 h2
      simp only [decide_eq_true_eq] at h1 h2 ⊢
      omega
    · intro a b
      simp only [Bool.or_eq_true, decide_eq_true_eq]
      omega
  · exact List.mergeSort_perm found _

/-- C6: the claim matches the intent — the return site of
`handle_scan_devices` sorts `found_devices` ascending by unit id, and that
sort is correct for every completion order (second conjunct) — but the code
never gets there: for every hub and every nonempty unit range the handler
raises before returning (first conjunct), because each `scan_unit` task
calls `hub.read_*(unit_id, register, 1, retries=0)` and `ModbusHub.read_*`
accepts no `retries` parameter, so a `TypeError` propagates through
`asyncio.gather`; on a failed connect the handler raises even earlier. -/
theorem C6_sorting_unreachable :
    (∀ (hub : HubModel) (read : Nat → Nat → Option Nat)
      (gather : List (Option FoundDevice) → List FoundDevice)
      (su eu register retries : Nat), su ≤ eu →
      handle_scan_devices hub read gather su eu register retries = none) ∧
    (∀ found : List FoundDevice,
      (finalFoundDevices found).Pairwise (fun a b => a.unitId ≤ b.unitId) ∧
      (finalFoundDevices found).Perm found) := by
  constructor
  · intro hub read gather su eu register retries hle
    by_cases hc : hub.connectOk = false
    · simp [handle_scan_devices, hc]
    · have hc' : hub.connectOk = true := by
        revert hc
        cases hub.connectOk <;> simp
      have hlen : eu + 1 - su = (eu - su) + 1 := by omega
      simp [handle_scan_devices, hc', hlen, List.range'_succ, scan_unit_crashes]
  · exact finalFoundDevices_sorted_perm

theorem C6_sorting_unreachable_witness :
    handle_scan_devices ⟨true⟩ (fun _ _ => some 5) (fun l => l.reduceOption) 1 2 0 3 =
      none ∧
    ((finalFoundDevices [⟨3, 0, 7⟩, ⟨1, 0, 9⟩]).Pairwise
        (fun a b => a.unitId ≤ b.unitId) ∧
      (finalFoundDevices [⟨3, 0, 7⟩, ⟨1, 0, 9⟩]).Perm [⟨3, 0, 7⟩, ⟨1, 0, 9⟩]) :=
  ⟨C6_sorting_unreachable.1 ⟨true⟩ (fun _ _ => some 5) (fun l => l.reduceOption)
      1 2 0 3 (by decide),
    C6_sorting_unreachable.2 [⟨3, 0, 7⟩, ⟨1, 0, 9⟩]⟩

/-- C7: the scan service does check the connection once, eagerly, before any
unit address is attempted, and on a failed check no per-unit result is
attempted or returned (the handler's outcome is the same for every per-unit
read behaviour) — but the claimed distinct scan-level Connection Failed
status carrying a structured reason is never produced: the reason lookup
`hub.last_error` at services.py line 244 raises `AttributeError`, because
`ModbusHub` defines no `last_error` attribute, so the whole scan aborts with
an uncaught exception (`none`) instead of the structured response the source
attempts to build at lines 250-254. -/
theorem C7_connect_failure_raises (hub : HubModel) (read read' : Nat → Nat → Option Nat)
    (gather gather' : List (Option FoundDevice) → List FoundDevice)
    (su eu register retries : Nat) (h : hub.connectOk = false) :
    handle_scan_devices hub read gather su eu register retries = none ∧
    handle_scan_devices hub read gather su eu register retries =
      handle_scan_devices hub read' gather' su eu register retries := by
  constructor <;> simp [handle_scan_devices, h]

theorem C7_connect_failure_raises_witness :
    handle_scan_devices ⟨false⟩ (fun _ _ => some 7) (fun _ => []) 1 247 0 3 = none ∧
    handle_scan_devices ⟨false⟩ (fun _ _ => some 7) (fun _ => []) 1 247 0 3 =
      handle_scan_devices ⟨false⟩ (fun _ _ => none) (fun _ => [⟨9, 9, 9⟩]) 1 247 0 3 :=
  C7_connect_failure_raises ⟨false⟩ (fun _ _ => some 7) (fun _ _ => none) (fun _ => [])
    (fun _ => [⟨9, 9, 9⟩]) 1 247 0 3 rfl

theorem serialAttemptLoop_proj {σ₁ σ₂ : Type} (cb₁ : LogEvent → σ₁ → σ₁)
    (cb₂ : LogEvent → σ₂ → σ₂) (oracle : Nat → SerialAttemptBehavior)
    (u register reg_type : Nat) :
    ∀ (fuel idx : Nat) (s₁ : σ₁) (s₂ : σ₂),
      (serialAttemptLoop cb₁ oracle u register reg_type fuel idx s₁).2 =
      (serialAttemptLoop cb₂ oracle u register reg_type fuel idx s₂).2 := by
  intro fuel
  induction fuel with
  | zero => intro idx s₁ s₂; rfl
  | succ n ih =>
    intro idx s₁ s₂
    simp only [serialAttemptLoop]
    cases hb : _build_request_packet .rtuFrame u reg_type register 1 0 with
    | none => exact ih (idx + 1) _ _
    | some req =>
      by_cases hio : (oracle idx).ioError = true
      · simp only [if_pos hio]
        exact ih (idx + 1) _ _
      · simp only [if_neg hio]
        by_cases hlen : (oracle idx).firstRead.length < 5
        · simp only [if_pos hlen]
          exact ih (idx + 1) _ _
        · simp only [if_neg hlen]
          by_cases hlen2 : (if (oracle idx).firstRead.getD 1 0 < 0x80 then
              (oracle idx).firstRead ++ (oracle idx).secondRead
              else (oracle idx).firstRead).length < 5
          · simp only [if_pos hlen2]
            exact ih (idx + 1) _ _
          · simp only [if_neg hlen2]
            cases hp : _parse_response_packet .rtuFrame req
                (if (oracle idx).firstRead.getD 1 0 < 0x80 then
                  (oracle idx).firstRead ++ (oracle idx).secondRead
                  else (oracle idx).firstRead) u with
            | none =>
              simp only [hp]
              exact ih (idx + 1) _ _
            | some p =>
              cases hcl : classify p with
              | none =>
                simp only [hp, hcl]
                exact ih (idx + 1) _ _
              | some o => simp [hp, hcl]

theorem scanSerialUnits_proj {σ₁ σ₂ : Type} (cb₁ : LogEvent → σ₁ → σ₁)
    (cb₂ : LogEvent → σ₂ → σ₂) (oracle : Nat → Nat → SerialAttemptBehavior)
    (register reg_type retries : Nat) :
    ∀ (units : List Nat) (s₁ : σ₁) (s₂ : σ₂),
      (scanSerialUnits cb₁ oracle register reg_type retries units s₁).2 =
      (scanSerialUnits cb₂ oracle register reg_type retries units s₂).2 := by
  intro units
  induction units with
  | nil => intro s₁ s₂; rfl
  | cons u rest ih =>
    intro s₁ s₂
    simp only [scanSerialUnits]
    have h := serialAttemptLoop_proj cb₁ cb₂ (oracle u) u register reg_type (retries + 1) 0 s₁ s₂
    rcases hA : serialAttemptLoop cb₁ (oracle u) u register reg_type (retries + 1) 0 s₁
      with ⟨t1, res1⟩
    rcases hB : serialAttemptLoop cb₂ (oracle u) u register reg_type (retries + 1) 0 s₂
      with ⟨t2, res2⟩
    rw [hA, hB] at h
    have h' : res1 = res2 := h
    subst h'
    simp only [hA, hB]
    cases res1 with
    | none =>
      have hrec := ih (cb₁ (.noResponseLogged u) t1) (cb₂ (.noResponseLogged u) t2)
      rcases hC : scanSerialUnits cb₁ oracle register reg_type retries rest
          (cb₁ (.noResponseLogged u) t1) with ⟨w1, tail1⟩
      rcases hD : scanSerialUnits cb₂ oracle register reg_type retries rest
          (cb₂ (.noResponseLogged u) t2) with ⟨w2, tail2⟩
      rw [hC, hD] at hrec
      have hrec' : tail1 = tail2 := hrec
      subst hrec'
      simp only [hC, hD]
    | some x =>
      have hrec := ih t1 t2
      rcases hC : scanSerialUnits cb₁ oracle register reg_type retries rest t1
        with ⟨w1, tail1⟩
      rcases hD : scanSerialUnits cb₂ oracle register reg_type retries rest t2
        with ⟨w2, tail2⟩
      rw [hC, hD] at hrec
      have hrec' : tail1 = tail2 := hrec
      subst hrec'
      simp only [hC, hD]

/-- C9: scan results are independent of the optional trace callback — for
identical transport behaviour, the per-unit outcomes and the final result
list of the persistent sequential TCP scan, of the ephemeral per-unit loop,
and of the serial scan are the same for any two log callbacks (and any two
initial callback states); the callback changes only what is observed, never
what is returned. -/
theorem C9_log_callback_no_influence :
    (∀ (σ₁ σ₂ : Type) (cb₁ : LogEvent → σ₁ → σ₁) (cb₂ : LogEvent → σ₂ → σ₂)
      (enc : Encapsulation) (oracle : Nat → Nat → AttemptBehavior)
      (su eu r retries : Nat) (s₁ : σ₁) (s₂ : σ₂),
      (scan_tcp_seq cb₁ enc oracle su eu r retries s₁).map (fun t => t.2) =
      (scan_tcp_seq cb₂ enc oracle su eu r retries s₂).map (fun t => t.2)) ∧
    (∀ (σ₁ σ₂ : Type) (cb₁ : LogEvent → σ₁ → σ₁) (cb₂ : LogEvent → σ₂ → σ₂)
      (enc : Encapsulation) (oracle : Nat → AttemptBehavior)
      (u r fuel idx : Nat) (s₁ : σ₁) (s₂ : σ₂),
      (scanOneLoop cb₁ enc oracle u r fuel idx s₁).map (fun t => t.2) =
      (scanOneLoop cb₂ enc oracle u r fuel idx s₂).map (fun t => t.2)) ∧
    (∀ (σ₁ σ₂ : Type) (cb₁ : LogEvent → σ₁ → σ₁) (cb₂ : LogEvent → σ₂ → σ₂)
      (portOpenOk : Bool) (oracle : Nat → Nat → SerialAttemptBehavior)
      (su eu register reg_type retries : Nat) (s₁ : σ₁) (s₂ : σ₂),
      (scan_serial cb₁ portOpenOk oracle su eu register reg_type retries s₁).2 =
      (scan_serial cb₂ portOpenOk oracle su eu register reg_type retries s₂).2) := by
  refine ⟨?_, ?_, ?_⟩
  · intro σ₁ σ₂ cb₁ cb₂ enc oracle su eu r retries s₁ s₂
    exact scanTcpSeqAux_proj cb₁ cb₂ enc oracle r retries _ false s₁ s₂
  · intro σ₁ σ₂ cb₁ cb₂ enc oracle u r fuel idx s₁ s₂
    exact scanOneLoop_proj cb₁ cb₂ enc oracle u r fuel idx s₁ s₂
  · intro σ₁ σ₂ cb₁ cb₂ portOpenOk oracle su eu register reg_type retries s₁ s₂
    cases portOpenOk with
    | false => rfl
    | true =>
      exact congrArg SerialScanOutput.results
        (scanSerialUnits_proj cb₁ cb₂ oracle register reg_type retries
          (List.range' su (eu + 1 - su)) s₁ s₂)
